import Mathlib

set_option linter.unusedVariables false

/-!  Shallow embedding of the home_server registry and dispatch core
     (src/bin/server.rs, src/bin/objects/mod.rs, src/bin/commands/mod.rs).

     Machine integers (`u32` ids) are modelled as `Nat`; the `i8`
     sub-identifier is modelled as `Int` with explicit range bounds where a
     statement depends on the i8 range.  The sled stores and the in-memory
     `HashMap` are modelled as association lists with replace-on-insert
     semantics; stored records are assumed well-typed, collapsing the
     serde round trip.  Network effects are modelled by explicit oracles:
     `ProbeOutcome` for the liveness probe of `ArduinoHandler::check`, and
     a `connectOk : Bool` for the per-command TCP connect/write. -/

/-- `removeKey m k` removes the binding for `k` (sled `remove` /
`HashMap::remove`): all pairs whose key equals `k` are dropped. -/
def removeKey {α : Type} (m : List (Nat × α)) (k : Nat) : List (Nat × α) :=
  m.filter (fun e => !(e.1 == k))

/-- Replace-on-insert, as `sled::Db::insert` / `HashMap::insert`. -/
def insertKV {α : Type} (m : List (Nat × α)) (k : Nat) (v : α) : List (Nat × α) :=
  (k, v) :: removeKey m k

def lookupKV {α : Type} (m : List (Nat × α)) (k : Nat) : Option α :=
  (m.find? (fun e => e.1 == k)).map Prod.snd

def keysOf {α : Type} (m : List (Nat × α)) : List Nat := m.map Prod.fst

def removeKeys {α : Type} (m : List (Nat × α)) (ks : List Nat) : List (Nat × α) :=
  ks.foldl removeKey m

/-- `max existing key + 1` over a store, `0` if empty — the id-counter
recovery value computed by the `open` scans. -/
def maxKeyPlusOne {α : Type} (m : List (Nat × α)) : Nat :=
  m.foldl (fun n e => max n (e.1 + 1)) 0

/- ===== objects/mod.rs ===== -/

/-- ASCII lowercasing of one character (the enum names the source
compares against are ASCII-only, so this models `str::to_lowercase` on
every input the comparisons can distinguish). -/
def lowerChar (c : Char) : Char :=
  if 65 ≤ c.toNat ∧ c.toNat ≤ 90 then Char.ofNat (c.toNat + 32) else c

def asciiToLower (s : String) : String := String.mk (s.data.map lowerChar)

inductive Protocol where
  | Arduino
  | SSH
deriving DecidableEq

def Protocol.name : Protocol → String
  | .Arduino => "Arduino"
  | .SSH => "SSH"

/-- `impl FromStr for Protocol` (case-insensitive). -/
def Protocol.fromStr (s : String) : Option Protocol :=
  match asciiToLower s with
  | "arduino" => some .Arduino
  | "ssh" => some .SSH
  | _ => none

inductive ActionnerId where
  | Arduino (n : Int)
  | SSH (s : String)
deriving DecidableEq

def ActionnerId.repr : ActionnerId → String
  | .Arduino n => toString n
  | .SSH s => s

inductive ObjectKind where
  | LED
deriving DecidableEq

def ObjectKind.name : ObjectKind → String
  | .LED => "LED"

def ObjectKind.id : ObjectKind → Nat
  | .LED => 1

/-- `impl FromStr for ObjectKind` (case-insensitive). -/
def ObjectKind.fromStr (s : String) : Option ObjectKind :=
  match asciiToLower s with
  | "led" => some .LED
  | _ => none

structure Object where
  actionner_id : Nat
  id_in_actionner : ActionnerId
  kind : ObjectKind
  name : String
deriving DecidableEq

/- ===== commands/mod.rs ===== -/

inductive ArduinoCommand where
  | Set (state : Bool)
  | Toggle
  | Check
deriving DecidableEq

/-- `ArduinoCommand::repr`: the wire frame for a command and an i8
sub-identifier (`toString` on `Int` renders decimal with a leading `-`
for negatives, matching Rust's `{}` formatting of `i8`). -/
def ArduinoCommand.repr (c : ArduinoCommand) (id : Int) : String :=
  match c with
  | .Set true => "on " ++ toString id ++ "\n"
  | .Set false => "off " ++ toString id ++ "\n"
  | .Toggle => "tog " ++ toString id ++ "\n"
  | .Check => "ard\n"

/-- Model of `bincode::deserialize::<ArduinoCommand>` over the payload
bytes (bincode 1.x legacy format: enum variant tag as a little-endian
u32, bool as one byte, trailing bytes ignored).  `none` is the
malformed-payload (decode error) case. -/
def deserializeArduinoCommand : List Nat → Option ArduinoCommand
  | 0 :: 0 :: 0 :: 0 :: b :: _ =>
    if b = 0 then some (.Set false) else if b = 1 then some (.Set true) else none
  | 1 :: 0 :: 0 :: 0 :: _ => some .Toggle
  | 2 :: 0 :: 0 :: 0 :: _ => some .Check
  | _ => none

/- ===== server.rs: Handler ===== -/

inductive HandlerError where
  | InvalidAddress
  | IoError
  | Internal
  | InvalidCommand
  | InvalidId
deriving DecidableEq

/-- Outcome of the network exchange inside `ArduinoHandler::check`:
either some connect/write/read step failed (including the 100 ms connect
timeout, whose elapse converts into an io error via `?`), or the exchange
completed and `buffer` is the 16-byte read buffer after the read. -/
inductive ProbeOutcome where
  | ioFailure
  | response (buffer : List Nat)
deriving DecidableEq

/-- The bytes of the ASCII literal `b"yes"`. -/
def yes_bytes : List Nat := [121, 101, 115]

/-- `ArduinoHandler::check`: `none` models the io-error path, otherwise
whether the first three response bytes equal `b"yes"`. -/
def ArduinoHandler.check (probe : ProbeOutcome) : Option Bool :=
  match probe with
  | .ioFailure => none
  | .response buffer => some (buffer.take 3 == yes_bytes)

inductive Handler where
  | Arduino (address : String)
  | SSH
deriving DecidableEq

/-- Result of a handler operation.  `panic` models reaching an
`unimplemented` arm in the source (the call never returns a value). -/
inductive HandlerResult (α : Type) where
  | ok (value : α)
  | err (error : HandlerError)
  | panic
deriving DecidableEq

def HandlerResult.isOk {α : Type} : HandlerResult α → Bool
  | .ok _ => true
  | _ => false

def HandlerResult.isErr {α : Type} : HandlerResult α → Bool
  | .err _ => true
  | _ => false

def Handler.protocol : Handler → Protocol
  | .Arduino _ => .Arduino
  | .SSH => .SSH

/-- `Handler::new`: the SSH arm is `unimplemented` (modelled as `panic`);
the Arduino arm runs the liveness check — an io failure maps to
`IoError`, a non-`yes` answer to `Internal`. -/
def Handler.new (protocol : Protocol) (remote : String) (probe : ProbeOutcome) :
    HandlerResult Handler :=
  match protocol with
  | .SSH => .panic
  | .Arduino =>
    match ArduinoHandler.check probe with
    | none => .err .IoError
    | some false => .err .Internal
    | some true => .ok (.Arduino remote)

/-- `Handler::command`.  On success it returns the frames written, as
(address, frame) pairs; `connectOk` models the fresh TCP connect/write in
`ArduinoHandler::send`.  The sub-identifier variant is matched before the
payload is decoded, as in the source. -/
def Handler.command (h : Handler) (command : List Nat) (object : Object)
    (connectOk : Bool) : HandlerResult (List (String × String)) :=
  match h with
  | .Arduino address =>
    match object.id_in_actionner with
    | .Arduino id =>
      match deserializeArduinoCommand command with
      | none => .err .InvalidCommand
      | some cmd =>
        if connectOk then .ok [(address, cmd.repr id)] else .err .IoError
    | .SSH _ => .err .InvalidId
  | .SSH => .panic

/- ===== server.rs: Devices ===== -/

structure Devices where
  devices : List (Nat × Object)
  next_id_to_assign : Nat
deriving DecidableEq

/-- `Devices::get` (stored records assumed well-typed, so the serde error
path of the source cannot trigger). -/
def Devices.get (d : Devices) (id : Nat) : Option Object :=
  lookupKV d.devices id

/-- `Devices::add`.  `storeOk` models whether the serialize/insert step
succeeds; the id counter is incremented before that step, as in the
source, so a failing add still consumes its id. -/
def Devices.add (d : Devices) (kind : ObjectKind) (actionner_id : Nat)
    (name : String) (id_in_actionner : ActionnerId) (storeOk : Bool) :
    Devices × Option Nat :=
  let new_obj : Object :=
    { kind := kind, actionner_id := actionner_id,
      id_in_actionner := id_in_actionner, name := name }
  let id := d.next_id_to_assign
  let d1 : Devices := { d with next_id_to_assign := id + 1 }
  if storeOk then ({ d1 with devices := insertKV d1.devices id new_obj }, some id)
  else (d1, none)

def Devices.list (d : Devices) : List (Nat × Object) := d.devices

/-- One iteration of the scan in `Devices::open`: the counter is raised to
`key + 1` for every entry, and the entry is deleted when its actionner is
not known. -/
def Devices.openStep (known : List Nat) (d : Devices) (entry : Nat × Object) : Devices :=
  let d1 : Devices := { d with next_id_to_assign := max d.next_id_to_assign (entry.1 + 1) }
  if known.contains entry.2.actionner_id then d1
  else { d1 with devices := removeKey d1.devices entry.1 }

/-- `Devices::open`: one scan over the stored entries (the iterator
snapshot), recovering the id counter and deleting orphaned entries. -/
def Devices.«open» (store : List (Nat × Object)) (known : List Nat) : Devices :=
  store.foldl (Devices.openStep known) { devices := store, next_id_to_assign := 0 }

/- ===== server.rs: Actionners ===== -/

structure ActionnerData where
  protocol : Protocol
  remote : String
  name : String
deriving DecidableEq

structure Actionner where
  handler : Handler
  name : String
deriving DecidableEq

structure Actionners where
  actionner_data : List (Nat × ActionnerData)
  actionners : List (Nat × Actionner)
  next_id_to_assign : Nat
deriving DecidableEq

/-- `Actionners::add`: the id counter is incremented first; then the
handler is constructed (liveness-gated); only on success are the
descriptor persisted and the live entry inserted. -/
def Actionners.add (a : Actionners) (data : ActionnerData) (probe : ProbeOutcome) :
    Actionners × HandlerResult Nat :=
  let id := a.next_id_to_assign
  let a1 : Actionners := { a with next_id_to_assign := id + 1 }
  match Handler.new data.protocol data.remote probe with
  | .panic => (a1, .panic)
  | .err e => (a1, .err e)
  | .ok handler =>
    ({ a1 with
        actionner_data := insertKV a1.actionner_data id data,
        actionners := insertKV a1.actionners id { handler := handler, name := data.name } },
      .ok id)

/-- Accumulator of the `Actionners::open` scan. -/
structure OpenAcc where
  actionner_data : List (Nat × ActionnerData)
  actionners : List (Nat × Actionner)
  next_id_to_assign : Nat
deriving DecidableEq

/-- One iteration of the scan in `Actionners::open`: the counter is raised
for every entry; a failed handler creation deletes the descriptor and
continues; a successful one inserts the live entry; an SSH descriptor
reaches the `unimplemented` arm of `Handler::new` (modelled `none`). -/
def Actionners.openStep (probe : Nat → ProbeOutcome) (acc : Option OpenAcc)
    (entry : Nat × ActionnerData) : Option OpenAcc :=
  match acc with
  | none => none
  | some acc =>
    let acc1 : OpenAcc :=
      { acc with next_id_to_assign := max acc.next_id_to_assign (entry.1 + 1) }
    match Handler.new entry.2.protocol entry.2.remote (probe entry.1) with
    | .panic => none
    | .err _ => some { acc1 with actionner_data := removeKey acc1.actionner_data entry.1 }
    | .ok handler =>
      some { acc1 with
              actionners := insertKV acc1.actionners entry.1
                              { handler := handler, name := entry.2.name } }

/-- `Actionners::open` over a decoded store snapshot, with a per-key probe
oracle; `none` models the open aborting in the `unimplemented` SSH arm. -/
def Actionners.«open» (store : List (Nat × ActionnerData)) (probe : Nat → ProbeOutcome) :
    Option Actionners :=
  match store.foldl (Actionners.openStep probe)
          (some { actionner_data := store, actionners := [], next_id_to_assign := 0 }) with
  | none => none
  | some acc =>
    some { actionner_data := acc.actionner_data, actionners := acc.actionners,
           next_id_to_assign := acc.next_id_to_assign }

/-- The display record produced by `Actionners::get_list`. -/
structure ActionnerInfo where
  id : Nat
  name : String
  protocol : String
deriving DecidableEq

def Actionners.get_list (a : Actionners) : List ActionnerInfo :=
  a.actionners.map (fun e => { id := e.1, name := e.2.name, protocol := e.2.handler.protocol.name })

def Actionners.get_known (a : Actionners) : List Nat :=
  a.get_list.map (fun i => i.id)

def Actionners.protocol (a : Actionners) (id : Nat) : Option Protocol :=
  (lookupKV a.actionners id).map (fun e => e.handler.protocol)

/-- `Actionners::act`: `ok none` when the device's actionner has no live
handler, otherwise the handler's result. -/
def Actionners.act (a : Actionners) (command : List Nat) (object : Object)
    (connectOk : Bool) : HandlerResult (Option (List (String × String))) :=
  match lookupKV a.actionners object.actionner_id with
  | none => .ok none
  | some hdlr =>
    match hdlr.handler.command command object connectOk with
    | .ok frames => .ok (some frames)
    | .err e => .err e
    | .panic => .panic

/- ===== server.rs: RPC facade ===== -/

inductive Code where
  | Aborted
  | InvalidArgument
  | Internal
  | NotFound
deriving DecidableEq

structure Status where
  code : Code
  message : String
deriving DecidableEq

/-- Result of an RPC handler body; `panic` models an `unimplemented` arm
being reached. -/
inductive RpcOutcome (α : Type) where
  | ok (value : α)
  | err (status : Status)
  | panic
deriving DecidableEq

def RpcOutcome.statusCode {α : Type} : RpcOutcome α → Option Code
  | .err s => some s.code
  | _ => none

structure HomeServer where
  devices : Devices
  actionners : Actionners
deriving DecidableEq

def digitVal (c : Char) : Option Nat :=
  if c.isDigit then some (c.toNat - 48) else none

def digitsToNat : List Char → Nat → Option Nat
  | [], acc => some acc
  | c :: rest, acc =>
    match digitVal c with
    | none => none
    | some d => digitsToNat rest (acc * 10 + d)

/-- Model of Rust `str::parse::<i8>()`: optional sign, then one or more
ASCII digits, and the resulting value must lie in the i8 range. -/
def parseI8 (s : String) : Option Int :=
  let cs := s.toList
  let signDigits : Int × List Char :=
    match cs with
    | '-' :: rest => (-1, rest)
    | '+' :: rest => (1, rest)
    | _ => (1, cs)
  match signDigits.2 with
  | [] => none
  | _ =>
    match digitsToNat signDigits.2 0 with
    | none => none
    | some n =>
      let v : Int := signDigits.1 * (n : Int)
      if -128 ≤ v ∧ v ≤ 127 then some v else none

structure RegisterDeviceRequest where
  kind : String
  actionner_id : Nat
  name : String
  id_in_actionner : String
deriving DecidableEq

structure RegisterActionnerRequest where
  protocol : String
  remote : String
  name : String
deriving DecidableEq

/-- `HomeServer::register_device` (RPC handler body).  The non-Arduino
protocol arm of the sub-identifier parse is `unimplemented` in the
source, modelled as `panic`. -/
def HomeServer.register_device (s : HomeServer) (request : RegisterDeviceRequest)
    (storeOk : Bool) : HomeServer × RpcOutcome Nat :=
  match ObjectKind.fromStr request.kind with
  | none => (s, .err { code := .InvalidArgument, message := "invalid category" })
  | some kind =>
    match s.actionners.protocol request.actionner_id with
    | none => (s, .err { code := .NotFound, message := "actionner not found" })
    | some Protocol.Arduino =>
      match parseI8 request.id_in_actionner with
      | none => (s, .err { code := .InvalidArgument, message := "invalid id for protocol" })
      | some i =>
        match s.devices.add kind request.actionner_id request.name (.Arduino i) storeOk with
        | (d1, none) => ({ s with devices := d1 }, .err { code := .Internal, message := "" })
        | (d1, some id) => ({ s with devices := d1 }, .ok id)
    | some Protocol.SSH => (s, .panic)

/-- `HomeServer::register_actionner` (RPC handler body); the error
messages of the source are modelled as fixed strings (the io-error case
interpolates the io error into its message in the source). -/
def HomeServer.register_actionner (s : HomeServer) (reg_req : RegisterActionnerRequest)
    (probe : ProbeOutcome) : HomeServer × RpcOutcome Nat :=
  match Protocol.fromStr reg_req.protocol with
  | none => (s, .err { code := .InvalidArgument, message := "invalid protocol" })
  | some protocol =>
    let data : ActionnerData :=
      { protocol := protocol, remote := reg_req.remote, name := reg_req.name }
    match s.actionners.add data probe with
    | (a1, .ok id) => ({ s with actionners := a1 }, .ok id)
    | (a1, .err .IoError) =>
      ({ s with actionners := a1 }, .err { code := .Aborted, message := "could not create handler" })
    | (a1, .err .InvalidAddress) =>
      ({ s with actionners := a1 }, .err { code := .InvalidArgument, message := "invalid address" })
    | (a1, .err .Internal) =>
      ({ s with actionners := a1 }, .err { code := .Internal, message := "error creating handler" })
    | (a1, .err _) =>
      ({ s with actionners := a1 }, .err { code := .Internal, message := "internal error" })
    | (a1, .panic) => ({ s with actionners := a1 }, .panic)

/-- `HomeServer::command` (RPC handler body).  The value carries the reply
string together with the frames written to remotes during the call; a
handler error maps to `Internal` with an empty message, any `ok` result
of `act` (including `ok none`) yields a success with an empty reply. -/
def HomeServer.command (s : HomeServer) (object_id : Nat) (command : List Nat)
    (connectOk : Bool) : RpcOutcome (String × List (String × String)) :=
  match s.devices.get object_id with
  | none => .err { code := .NotFound, message := "device not found" }
  | some obj =>
    match s.actionners.act command obj connectOk with
    | .ok sent => .ok ("", sent.getD [])
    | .err _ => .err { code := .Internal, message := "" }
    | .panic => .panic

/- ===== Lock-event trace of HomeServer::command ===== -/

inductive LockEvent where
  | acquireDevices
  | releaseDevices
  | acquireActionners
  | releaseActionners
deriving DecidableEq, BEq

/-- Lock events of one `HomeServer::command` call, in program order,
derived from the source: the devices guard is the temporary
`self.devices.lock().await` in the scrutinee of the outer `match`, and a
temporary in a match scrutinee is dropped at the end of the whole match
expression, so in the `Ok(Some(obj))` arm the actionners guard (itself a
scrutinee temporary of the inner match, dropped at the inner match's end)
is acquired while the devices guard is still held.  `device_found` is
whether the device lookup produced `Ok(Some(_))` (in the other arms the
function returns without touching the actionners lock). -/
def commandLockTrace (device_found : Bool) : List LockEvent :=
  if device_found then
    [.acquireDevices, .acquireActionners, .releaseActionners, .releaseDevices]
  else
    [.acquireDevices, .releaseDevices]

/-- `true` iff every `acquireActionners` in the trace occurs while the
devices lock is held. -/
def actionnersAcquiredWithinDevices (tr : List LockEvent) : Bool :=
  (tr.foldl (fun st e =>
      match e with
      | .acquireDevices => (true, st.2)
      | .releaseDevices => (false, st.2)
      | .acquireActionners => (st.1, st.2 && st.1)
      | .releaseActionners => st)
    ((false, true) : Bool × Bool)).2

/- ===== Sequences of add calls (harness for the id-allocation claims) ===== -/

structure AddCall where
  kind : ObjectKind
  actionner_id : Nat
  name : String
  id_in_actionner : ActionnerId
deriving DecidableEq

/-- Run a sequence of `Devices::add` calls; returns the final state and
the ids returned by the successful adds, in order. -/
def Devices.runAdds : Devices → List (AddCall × Bool) → Devices × List Nat
  | d, [] => (d, [])
  | d, c :: rest =>
    let step := d.add c.1.kind c.1.actionner_id c.1.name c.1.id_in_actionner c.2
    let next := Devices.runAdds step.1 rest
    (next.1, match step.2 with | some id => id :: next.2 | none => next.2)

/-- Run a sequence of `Actionners::add` calls; returns the final state and
the ids returned by the successful adds, in order. -/
def Actionners.runAdds : Actionners → List (ActionnerData × ProbeOutcome) → Actionners × List Nat
  | a, [] => (a, [])
  | a, c :: rest =>
    let step := a.add c.1 c.2
    let next := Actionners.runAdds step.1 rest
    (next.1, match step.2 with | .ok id => id :: next.2 | _ => next.2)

/- ===== Helper lemmas: association-list store ===== -/

theorem mem_removeKey {α : Type} {m : List (Nat × α)} {k : Nat} {e : Nat × α} :
    e ∈ removeKey m k ↔ e ∈ m ∧ e.1 ≠ k := by
  simp [removeKey, List.mem_filter]

theorem removeKeys_eq_filter {α : Type} (ks : List Nat) :
    ∀ (m : List (Nat × α)), removeKeys m ks = m.filter (fun e => !(ks.contains e.1)) := by
  induction ks with
  | nil =>
    intro m
    have h : ∀ e ∈ m, (!(List.contains [] (Prod.fst e))) = true := by
      intro e _; rfl
    calc removeKeys m [] = m := rfl
    _ = m.filter (fun _ => true) := (List.filter_true m).symm
    _ = m.filter (fun e => !(List.contains [] e.1)) := List.filter_congr (by intro x _; rfl)
  | cons k ks ih =>
    intro m
    have h1 : removeKeys m (k :: ks) = removeKeys (removeKey m k) ks := rfl
    rw [h1, ih]
    rw [removeKey, List.filter_filter]
    apply List.filter_congr
    intro e _
    by_cases hk : e.1 = k
    · simp [hk]
    · simp [hk, List.contains]

theorem keysOf_mem_iff {α : Type} {m : List (Nat × α)} {k : Nat} :
    k ∈ keysOf m ↔ ∃ v, (k, v) ∈ m := by
  constructor
  · intro h
    rcases List.mem_map.1 h with ⟨e, he, hk⟩
    exact ⟨e.2, by simpa [← hk] using he⟩
  · rintro ⟨v, hv⟩
    exact List.mem_map.2 ⟨(k, v), hv, rfl⟩

theorem keysOf_insertKV {α : Type} {m : List (Nat × α)} {k k' : Nat} {v : α} :
    k' ∈ keysOf (insertKV m k v) ↔ k' = k ∨ k' ∈ keysOf m := by
  simp only [insertKV, keysOf, List.map_cons, List.mem_cons]
  constructor
  · rintro (h | h)
    · exact Or.inl h
    · rcases List.mem_map.1 h with ⟨e, he, hk⟩
      exact Or.inr (List.mem_map.2 ⟨e, (mem_removeKey.1 he).1, hk⟩)
  · rintro (h | h)
    · exact Or.inl h
    · by_cases hk : k' = k
      · exact Or.inl hk
      · rcases List.mem_map.1 h with ⟨e, he, hke⟩
        exact Or.inr (List.mem_map.2 ⟨e, mem_removeKey.2 ⟨he, by simpa [hke] using hk⟩, hke⟩)

/- ===== Helper lemmas: the fold computing the recovered id counter ===== -/

theorem foldl_max_le {α : Type} (m : List (Nat × α)) :
    ∀ (acc b : Nat), (m.foldl (fun n e => max n (e.1 + 1)) acc ≤ b) ↔
      (acc ≤ b ∧ ∀ e ∈ m, e.1 + 1 ≤ b) := by
  induction m with
  | nil => intro acc b; simp
  | cons e rest ih =>
    intro acc b
    simp only [List.foldl_cons, ih, List.mem_cons]
    constructor
    · rintro ⟨h1, h2⟩
      have := max_le_iff.1 h1
      exact ⟨this.1, by rintro x (rfl | hx); exact this.2; exact h2 x hx⟩
    · rintro ⟨h1, h2⟩
      refine ⟨max_le_iff.2 ⟨h1, h2 e (Or.inl rfl)⟩, ?_⟩
      intro x hx; exact h2 x (Or.inr hx)

theorem le_foldl_max {α : Type} (m : List (Nat × α)) (acc : Nat) :
    acc ≤ m.foldl (fun n e => max n (e.1 + 1)) acc :=
  ((foldl_max_le m acc _).1 le_rfl).1

theorem mem_le_foldl_max {α : Type} {m : List (Nat × α)} {e : Nat × α} (he : e ∈ m)
    (acc : Nat) : e.1 + 1 ≤ m.foldl (fun n e => max n (e.1 + 1)) acc :=
  ((foldl_max_le m acc _).1 le_rfl).2 e he

theorem maxKeyPlusOne_eq_of_keys_iff {α : Type} {m : List (Nat × α)} {n : Nat}
    (h : ∀ k, k ∈ keysOf m ↔ k < n) : maxKeyPlusOne m = n := by
  apply Nat.le_antisymm
  · apply (foldl_max_le m 0 n).2
    refine ⟨Nat.zero_le n, ?_⟩
    intro e he
    exact (h e.1).1 (List.mem_map.2 ⟨e, he, rfl⟩)
  · cases n with
    | zero => exact Nat.zero_le _
    | succ n =>
      have hk : n ∈ keysOf m := (h n).2 (Nat.lt_succ_self n)
      rcases keysOf_mem_iff.1 hk with ⟨v, hv⟩
      simpa using @mem_le_foldl_max α m (n, v) hv 0

/- ===== Helper lemmas: Devices::open scan ===== -/

/-- Keys of the store entries deleted by the `Devices::open` scan (those
whose actionner id is not known). -/
def orphKeys (known : List Nat) (store : List (Nat × Object)) : List Nat :=
  (store.filter (fun e => !(known.contains e.2.actionner_id))).map Prod.fst

theorem openStep_next (known : List Nat) (acc : Devices) (e : Nat × Object) :
    (Devices.openStep known acc e).next_id_to_assign =
      max acc.next_id_to_assign (e.1 + 1) := by
  simp only [Devices.openStep]
  split <;> rfl

theorem openStep_devices_pos {known : List Nat} (acc : Devices) {e : Nat × Object}
    (h : e.2.actionner_id ∈ known) :
    (Devices.openStep known acc e).devices = acc.devices := by
  simp [Devices.openStep, h]

theorem openStep_devices_neg {known : List Nat} (acc : Devices) {e : Nat × Object}
    (h : e.2.actionner_id ∉ known) :
    (Devices.openStep known acc e).devices = removeKey acc.devices e.1 := by
  simp [Devices.openStep, h]

theorem orphKeys_cons_pos {known : List Nat} {e : Nat × Object} (rest : List (Nat × Object))
    (h : e.2.actionner_id ∈ known) :
    orphKeys known (e :: rest) = orphKeys known rest := by
  simp [orphKeys, h]

theorem orphKeys_cons_neg {known : List Nat} {e : Nat × Object} (rest : List (Nat × Object))
    (h : e.2.actionner_id ∉ known) :
    orphKeys known (e :: rest) = e.1 :: orphKeys known rest := by
  simp [orphKeys, h]

theorem foldl_openStep_next (known : List Nat) (store : List (Nat × Object)) :
    ∀ (acc : Devices),
      (store.foldl (Devices.openStep known) acc).next_id_to_assign =
        store.foldl (fun n e => max n (e.1 + 1)) acc.next_id_to_assign := by
  induction store with
  | nil => intro acc; rfl
  | cons e rest ih =>
    intro acc
    simp only [List.foldl_cons]
    rw [ih]
    have h1 : (Devices.openStep known acc e).next_id_to_assign =
        max acc.next_id_to_assign (e.1 + 1) := openStep_next known acc e
    rw [h1]

theorem foldl_openStep_devices (known : List Nat) (store : List (Nat × Object)) :
    ∀ (acc : Devices),
      (store.foldl (Devices.openStep known) acc).devices =
        removeKeys acc.devices (orphKeys known store) := by
  induction store with
  | nil => intro acc; rfl
  | cons e rest ih =>
    intro acc
    simp only [List.foldl_cons]
    rw [ih]
    by_cases h : e.2.actionner_id ∈ known
    · rw [openStep_devices_pos acc h, orphKeys_cons_pos rest h]
    · rw [openStep_devices_neg acc h, orphKeys_cons_neg rest h]
      rfl

theorem devicesOpen_next (store : List (Nat × Object)) (known : List Nat) :
    (Devices.«open» store known).next_id_to_assign = maxKeyPlusOne store := by
  unfold Devices.«open» maxKeyPlusOne
  exact foldl_openStep_next known store _

theorem devicesOpen_devices (store : List (Nat × Object)) (known : List Nat) :
    (Devices.«open» store known).devices =
      store.filter (fun e => !((orphKeys known store).contains e.1)) := by
  unfold Devices.«open»
  rw [foldl_openStep_devices known store _]
  exact removeKeys_eq_filter _ _

theorem key_lt_devicesOpen_next {store : List (Nat × Object)} {known : List Nat}
    {e : Nat × Object} (he : e ∈ store) :
    e.1 < (Devices.«open» store known).next_id_to_assign := by
  rw [devicesOpen_next]
  exact mem_le_foldl_max he 0

theorem devicesOpen_devices_of_nodup {store : List (Nat × Object)} {known : List Nat}
    (hnodup : (keysOf store).Nodup) :
    (Devices.«open» store known).devices =
      store.filter (fun e => known.contains e.2.actionner_id) := by
  rw [devicesOpen_devices]
  apply List.filter_congr
  intro e he
  by_cases h : e.2.actionner_id ∈ known
  · have hnm : e.1 ∉ orphKeys known store := by
      intro hmem
      rcases List.mem_map.1 hmem with ⟨e', he', hk⟩
      have he'2 := List.mem_filter.1 he'
      have heq : e' = e := List.inj_on_of_nodup_map hnodup he'2.1 he hk
      rw [heq] at he'2
      have : e.2.actionner_id ∉ known := by simpa using he'2.2
      exact this h
    simp [h, hnm]
  · have hm : e.1 ∈ orphKeys known store :=
      List.mem_map.2 ⟨e, List.mem_filter.2 ⟨he, by simp [h]⟩, rfl⟩
    simp [h, hm]

/- ===== C4 ===== -/

/-- C4: for every persisted device store and every known-actionner id set
passed to `Devices::open`, after open every entry whose `actionner_id` is
not in the set has been deleted from the persisted store; `list()` after
reopening returns exactly the devices whose `actionner_id` is in the set;
and the deleted entries stay absent across a further reopen (a further
open only ever keeps entries that were already present). -/
theorem devices_open_orphan_reconciliation (store : List (Nat × Object))
    (known known2 : List Nat) (hnodup : (keysOf store).Nodup) :
    (Devices.«open» store known).list =
        store.filter (fun e => known.contains e.2.actionner_id)
    ∧ (∀ e ∈ store, e.2.actionner_id ∉ known → e ∉ (Devices.«open» store known).devices)
    ∧ (∀ e ∈ (Devices.«open» store known).list, e.2.actionner_id ∈ known)
    ∧ (∀ e ∈ (Devices.«open» (Devices.«open» store known).devices known2).devices,
         e ∈ (Devices.«open» store known).devices) := by
  have hlist : (Devices.«open» store known).list =
      store.filter (fun e => known.contains e.2.actionner_id) := by
    show (Devices.«open» store known).devices = _
    exact devicesOpen_devices_of_nodup hnodup
  refine ⟨hlist, ?_, ?_, ?_⟩
  · intro e he hnotin hmem
    have hmem' : e ∈ (Devices.«open» store known).list := hmem
    rw [hlist] at hmem'
    have := (List.mem_filter.1 hmem').2
    exact hnotin (by simpa using this)
  · intro e he
    rw [hlist] at he
    have := (List.mem_filter.1 he).2
    simpa using this
  · intro e he
    rw [devicesOpen_devices ((Devices.«open» store known).devices) known2] at he
    exact (List.mem_filter.1 he).1

/-- Concrete device store for the C4 witness: the device keyed 3 is bound
to actionner 7, which the known set [5] does not contain. -/
def c4store : List (Nat × Object) :=
  [(0, { actionner_id := 5, id_in_actionner := .Arduino 3, kind := .LED, name := "led1" }),
   (3, { actionner_id := 7, id_in_actionner := .Arduino 4, kind := .LED, name := "led2" })]

theorem devices_open_orphan_reconciliation_witness :
    (keysOf c4store).Nodup ∧
    ((Devices.«open» c4store [5]).list =
        c4store.filter (fun e => List.contains [5] e.2.actionner_id)
     ∧ (∀ e ∈ c4store, e.2.actionner_id ∉ [5] → e ∉ (Devices.«open» c4store [5]).devices)
     ∧ (∀ e ∈ (Devices.«open» c4store [5]).list, e.2.actionner_id ∈ [5])
     ∧ (∀ e ∈ (Devices.«open» (Devices.«open» c4store [5]).devices []).devices,
          e ∈ (Devices.«open» c4store [5]).devices)) :=
  ⟨by decide, devices_open_orphan_reconciliation c4store [5] [] (by decide)⟩

/- ===== Helper lemmas: Actionners::open scan ===== -/

/-- Keys of the stored descriptors whose handler creation fails during the
`Actionners::open` scan. -/
def failKeys (probe : Nat → ProbeOutcome) (store : List (Nat × ActionnerData)) : List Nat :=
  (store.filter (fun e => (Handler.new e.2.protocol e.2.remote (probe e.1)).isErr)).map Prod.fst

/-- Keys of the stored descriptors whose handler creation succeeds during
the `Actionners::open` scan. -/
def okKeys (probe : Nat → ProbeOutcome) (store : List (Nat × ActionnerData)) : List Nat :=
  (store.filter (fun e => (Handler.new e.2.protocol e.2.remote (probe e.1)).isOk)).map Prod.fst

theorem isOk_isErr_false {α : Type} {r : HandlerResult α} (h : r.isOk = true) :
    r.isErr = false := by
  cases r <;> simp_all [HandlerResult.isOk, HandlerResult.isErr]

theorem isErr_isOk_false {α : Type} {r : HandlerResult α} (h : r.isErr = true) :
    r.isOk = false := by
  cases r <;> simp_all [HandlerResult.isOk, HandlerResult.isErr]

theorem foldl_actOpenStep_none (probe : Nat → ProbeOutcome)
    (store : List (Nat × ActionnerData)) :
    store.foldl (Actionners.openStep probe) none = none := by
  induction store with
  | nil => rfl
  | cons e rest ih =>
    simp only [List.foldl_cons]
    have h : Actionners.openStep probe none e = none := rfl
    rw [h, ih]

theorem foldl_actOpenStep_some (probe : Nat → ProbeOutcome)
    (store : List (Nat × ActionnerData)) :
    ∀ (acc out : OpenAcc),
      store.foldl (Actionners.openStep probe) (some acc) = some out →
      out.actionner_data = removeKeys acc.actionner_data (failKeys probe store)
      ∧ out.next_id_to_assign =
          store.foldl (fun n e => max n (e.1 + 1)) acc.next_id_to_assign
      ∧ (∀ k, k ∈ keysOf out.actionners ↔
          k ∈ keysOf acc.actionners ∨ k ∈ okKeys probe store) := by
  induction store with
  | nil =>
    intro acc out h
    have hao : acc = out := by simpa using h
    subst hao
    refine ⟨rfl, rfl, ?_⟩
    intro k
    simp [okKeys, keysOf]
  | cons e rest ih =>
    intro acc out h
    simp only [List.foldl_cons] at h
    cases hn : Handler.new e.2.protocol e.2.remote (probe e.1) with
    | panic =>
      have hstep : Actionners.openStep probe (some acc) e = none := by
        simp [Actionners.openStep, hn]
      rw [hstep, foldl_actOpenStep_none] at h
      cases h
    | err er =>
      have hstep : Actionners.openStep probe (some acc) e =
          some { acc with
                  next_id_to_assign := max acc.next_id_to_assign (e.1 + 1),
                  actionner_data := removeKey acc.actionner_data e.1 } := by
        simp [Actionners.openStep, hn]
      rw [hstep] at h
      rcases ih _ _ h with ⟨hdata, hnext, hkeys⟩
      have hfail : failKeys probe (e :: rest) = e.1 :: failKeys probe rest := by
        simp [failKeys, hn, HandlerResult.isErr]
      have hok : okKeys probe (e :: rest) = okKeys probe rest := by
        simp [okKeys, hn, HandlerResult.isOk]
      refine ⟨?_, ?_, ?_⟩
      · rw [hfail, hdata]; rfl
      · simpa using hnext
      · intro k
        rw [hok]
        simpa using hkeys k
    | ok handler =>
      have hstep : Actionners.openStep probe (some acc) e =
          some { acc with
                  next_id_to_assign := max acc.next_id_to_assign (e.1 + 1),
                  actionners := insertKV acc.actionners e.1
                                  { handler := handler, name := e.2.name } } := by
        simp [Actionners.openStep, hn]
      rw [hstep] at h
      rcases ih _ _ h with ⟨hdata, hnext, hkeys⟩
      have hfail : failKeys probe (e :: rest) = failKeys probe rest := by
        simp [failKeys, hn, HandlerResult.isErr]
      have hok : okKeys probe (e :: rest) = e.1 :: okKeys probe rest := by
        simp [okKeys, hn, HandlerResult.isOk]
      refine ⟨?_, ?_, ?_⟩
      · rw [hfail, hdata]
      · simpa using hnext
      · intro k
        rw [hok, hkeys k, keysOf_insertKV, List.mem_cons]
        tauto

theorem actionnersOpen_spec {store : List (Nat × ActionnerData)} {probe : Nat → ProbeOutcome}
    {a : Actionners} (hopen : Actionners.«open» store probe = some a) :
    a.actionner_data = store.filter (fun e => !((failKeys probe store).contains e.1))
    ∧ a.next_id_to_assign = maxKeyPlusOne store
    ∧ (∀ k, k ∈ keysOf a.actionners ↔ k ∈ okKeys probe store) := by
  unfold Actionners.«open» at hopen
  cases hf : store.foldl (Actionners.openStep probe)
      (some { actionner_data := store, actionners := [], next_id_to_assign := 0 }) with
  | none => rw [hf] at hopen; cases hopen
  | some out =>
    rw [hf] at hopen
    rcases foldl_actOpenStep_some probe store _ _ hf with ⟨hdata, hnext, hkeys⟩
    cases hopen
    refine ⟨?_, ?_, ?_⟩
    · show out.actionner_data = _
      rw [hdata]
      exact removeKeys_eq_filter _ _
    · show out.next_id_to_assign = _
      rw [hnext]; rfl
    · intro k
      show k ∈ keysOf out.actionners ↔ _
      rw [hkeys k]
      simp [keysOf]

/- ===== C5 ===== -/

/-- C5: after `Actionners::open` completes on a persisted descriptor
store, a stored descriptor whose `Handler::create` failed appears neither
in `get_list()` nor in the persisted store, while one whose handler was
created appears in both; and the recovered id counter is max key + 1 over
the original stored set (including the keys deleted during the pass),
`maxKeyPlusOne` being that fold. -/
theorem actionners_open_eviction (store : List (Nat × ActionnerData))
    (probe : Nat → ProbeOutcome) (a : Actionners)
    (hnodup : (keysOf store).Nodup)
    (hopen : Actionners.«open» store probe = some a) :
    (∀ id data, (id, data) ∈ store →
      (((Handler.new data.protocol data.remote (probe id)).isOk = true →
          (id, data) ∈ a.actionner_data ∧ ∃ info ∈ a.get_list, info.id = id)
       ∧ ((Handler.new data.protocol data.remote (probe id)).isErr = true →
          id ∉ keysOf a.actionner_data ∧ ∀ info ∈ a.get_list, info.id ≠ id)))
    ∧ a.next_id_to_assign = maxKeyPlusOne store := by
  rcases actionnersOpen_spec hopen with ⟨hdata, hnext, hkeys⟩
  refine ⟨?_, hnext⟩
  intro id data hmem
  constructor
  · intro hOk
    constructor
    · rw [hdata]
      apply List.mem_filter.2
      refine ⟨hmem, ?_⟩
      have hnotfail : id ∉ failKeys probe store := by
        intro hf
        rcases List.mem_map.1 hf with ⟨e', he', hk⟩
        have he'2 := List.mem_filter.1 he'
        have heq : e' = (id, data) :=
          List.inj_on_of_nodup_map hnodup he'2.1 hmem hk
        rw [heq] at he'2
        have : (Handler.new data.protocol data.remote (probe id)).isErr = true := he'2.2
        rw [isOk_isErr_false hOk] at this
        cases this
      simp [hnotfail]
    · have hidok : id ∈ okKeys probe store :=
        List.mem_map.2 ⟨(id, data), List.mem_filter.2 ⟨hmem, hOk⟩, rfl⟩
      have : id ∈ keysOf a.actionners := (hkeys id).2 hidok
      rcases keysOf_mem_iff.1 this with ⟨act, hact⟩
      exact ⟨{ id := id, name := act.name, protocol := act.handler.protocol.name },
             List.mem_map.2 ⟨(id, act), hact, rfl⟩, rfl⟩
  · intro hErr
    constructor
    · intro hk
      rcases keysOf_mem_iff.1 hk with ⟨v, hv⟩
      rw [hdata] at hv
      have h2 := (List.mem_filter.1 hv).2
      have hinfail : id ∈ failKeys probe store :=
        List.mem_map.2 ⟨(id, data), List.mem_filter.2 ⟨hmem, hErr⟩, rfl⟩
      simp [hinfail] at h2
    · intro info hinfo hid
      rcases List.mem_map.1 hinfo with ⟨e', he', hinfoeq⟩
      have hidkeys : id ∈ keysOf a.actionners := by
        apply keysOf_mem_iff.2
        refine ⟨e'.2, ?_⟩
        have : e'.1 = id := by rw [← hid, ← hinfoeq]
        rw [← this]
        exact he'
      have hidok : id ∈ okKeys probe store := (hkeys id).1 hidkeys
      rcases List.mem_map.1 hidok with ⟨e'', he'', hk''⟩
      have he''2 := List.mem_filter.1 he''
      have heq : e'' = (id, data) :=
        List.inj_on_of_nodup_map hnodup he''2.1 hmem hk''
      rw [heq] at he''2
      have : (Handler.new data.protocol data.remote (probe id)).isOk = true := he''2.2
      rw [isErr_isOk_false hErr] at this
      cases this

/-- Concrete descriptor store for the C5 witness: the descriptor keyed 0
passes its probe, the one keyed 4 gets an io failure and is evicted. -/
def c5store : List (Nat × ActionnerData) :=
  [(0, { protocol := .Arduino, remote := "10.0.0.1:80", name := "ard1" }),
   (4, { protocol := .Arduino, remote := "10.0.0.2:80", name := "ard2" })]

def c5probe : Nat → ProbeOutcome :=
  fun id => if id = 0 then .response (yes_bytes ++ [0]) else .ioFailure

def c5result : Actionners :=
  { actionner_data := [(0, { protocol := .Arduino, remote := "10.0.0.1:80", name := "ard1" })],
    actionners := [(0, { handler := .Arduino "10.0.0.1:80", name := "ard1" })],
    next_id_to_assign := 5 }

theorem actionners_open_eviction_witness :
    ((keysOf c5store).Nodup ∧ Actionners.«open» c5store c5probe = some c5result) ∧
    ((∀ id data, (id, data) ∈ c5store →
       (((Handler.new data.protocol data.remote (c5probe id)).isOk = true →
           (id, data) ∈ c5result.actionner_data ∧ ∃ info ∈ c5result.get_list, info.id = id)
        ∧ ((Handler.new data.protocol data.remote (c5probe id)).isErr = true →
           id ∉ keysOf c5result.actionner_data ∧ ∀ info ∈ c5result.get_list, info.id ≠ id)))
     ∧ c5result.next_id_to_assign = maxKeyPlusOne c5store) :=
  ⟨⟨by decide, by decide⟩,
   actionners_open_eviction c5store c5probe c5result (by decide) (by decide)⟩

/- ===== C1 ===== -/

/-- Empty server state (both registries opened on empty stores). -/
def srv0 : HomeServer :=
  { devices := { devices := [], next_id_to_assign := 0 },
    actionners := { actionner_data := [], actionners := [], next_id_to_assign := 0 } }

/-- C1 (amended): a `RegisterActionner` request whose Arduino probe fails
the liveness handshake creates no persisted record and no in-memory live
entry (store, live map, `get_list`, and the device registry are exactly
as before), and the RPC status is `Aborted` when the failure is a
connect/IO failure or timeout, but `Internal` when the remote answered
without `yes` as its first three bytes. -/
theorem register_actionner_liveness_gate (s : HomeServer)
    (req : RegisterActionnerRequest) (probe : ProbeOutcome)
    (hproto : Protocol.fromStr req.protocol = some Protocol.Arduino)
    (hfail : ArduinoHandler.check probe ≠ some true) :
    (HomeServer.register_actionner s req probe).1.actionners.actionner_data
        = s.actionners.actionner_data
    ∧ (HomeServer.register_actionner s req probe).1.actionners.actionners
        = s.actionners.actionners
    ∧ (HomeServer.register_actionner s req probe).1.actionners.get_list
        = s.actionners.get_list
    ∧ (HomeServer.register_actionner s req probe).1.devices = s.devices
    ∧ (probe = .ioFailure →
        (HomeServer.register_actionner s req probe).2
          = .err { code := .Aborted, message := "could not create handler" })
    ∧ (∀ buffer, probe = .response buffer →
        (HomeServer.register_actionner s req probe).2
          = .err { code := .Internal, message := "error creating handler" }) := by
  cases probe with
  | ioFailure =>
    have hnew : Handler.new Protocol.Arduino req.remote .ioFailure = .err .IoError := rfl
    simp [HomeServer.register_actionner, hproto, Actionners.add, hnew, Actionners.get_list]
  | response buffer =>
    have hb : (buffer.take 3 == yes_bytes) = false := by
      cases hbb : buffer.take 3 == yes_bytes
      · rfl
      · exact absurd (by simp [ArduinoHandler.check, hbb]) hfail
    have hnew : Handler.new Protocol.Arduino req.remote (.response buffer) = .err .Internal := by
      simp [Handler.new, ArduinoHandler.check, hb]
    simp [HomeServer.register_actionner, hproto, Actionners.add, hnew, Actionners.get_list]

/-- Request used by the C1 witness and counterexample. -/
def c1req : RegisterActionnerRequest :=
  { protocol := "Arduino", remote := "10.0.0.1:80", name := "ard1" }

theorem register_actionner_liveness_gate_witness :
    (Protocol.fromStr c1req.protocol = some Protocol.Arduino
      ∧ ArduinoHandler.check ProbeOutcome.ioFailure ≠ some true) ∧
    ((HomeServer.register_actionner srv0 c1req ProbeOutcome.ioFailure).1.actionners.actionner_data
        = srv0.actionners.actionner_data
     ∧ (HomeServer.register_actionner srv0 c1req ProbeOutcome.ioFailure).1.actionners.actionners
        = srv0.actionners.actionners
     ∧ (HomeServer.register_actionner srv0 c1req ProbeOutcome.ioFailure).1.actionners.get_list
        = srv0.actionners.get_list
     ∧ (HomeServer.register_actionner srv0 c1req ProbeOutcome.ioFailure).1.devices = srv0.devices
     ∧ (ProbeOutcome.ioFailure = .ioFailure →
        (HomeServer.register_actionner srv0 c1req ProbeOutcome.ioFailure).2
          = .err { code := .Aborted, message := "could not create handler" })
     ∧ (∀ buffer, ProbeOutcome.ioFailure = .response buffer →
        (HomeServer.register_actionner srv0 c1req ProbeOutcome.ioFailure).2
          = .err { code := .Internal, message := "error creating handler" })) :=
  ⟨⟨by decide, by decide⟩,
   register_actionner_liveness_gate srv0 c1req ProbeOutcome.ioFailure (by decide) (by decide)⟩

/-- C1 counterexample to the claim as stated: when the probed remote
answers but not with `yes` (here a buffer of zeros), the RPC status is
`Internal`, not the claimed transient-remote `Aborted`. -/
theorem register_actionner_liveness_counterexample :
    (HomeServer.register_actionner srv0 c1req
        (ProbeOutcome.response (List.replicate 16 0))).2
      = RpcOutcome.err { code := Code.Internal, message := "error creating handler" }
    ∧ Code.Internal ≠ Code.Aborted := by decide

/- ===== C9 ===== -/

/-- C9: when `Actionners::add` fails at handler construction, the
persistent descriptor store and the live-handler map are unchanged, yet
`next_id_to_assign` was already incremented, so the id is consumed: a
following successful add returns `next + 1`, one greater than the id the
same add would have returned without the failed attempt. -/
theorem actionners_add_failed_consumes_id (a : Actionners) (data : ActionnerData)
    (probe : ProbeOutcome) (e : HandlerError)
    (hfail : Handler.new data.protocol data.remote probe = .err e) :
    (a.add data probe).1.actionner_data = a.actionner_data
    ∧ (a.add data probe).1.actionners = a.actionners
    ∧ (a.add data probe).1.next_id_to_assign = a.next_id_to_assign + 1
    ∧ (a.add data probe).2 = .err e
    ∧ (∀ data2 probe2 h2, Handler.new data2.protocol data2.remote probe2 = .ok h2 →
        ((a.add data probe).1.add data2 probe2).2 = .ok (a.next_id_to_assign + 1)
        ∧ (a.add data2 probe2).2 = .ok a.next_id_to_assign) := by
  refine ⟨by simp [Actionners.add, hfail], by simp [Actionners.add, hfail],
          by simp [Actionners.add, hfail], by simp [Actionners.add, hfail], ?_⟩
  intro data2 probe2 h2 hok
  constructor
  · simp [Actionners.add, hfail, hok]
  · simp [Actionners.add, hok]

def c9data : ActionnerData := { protocol := .Arduino, remote := "10.0.0.1:80", name := "ard1" }

def c9act : Actionners := { actionner_data := [], actionners := [], next_id_to_assign := 0 }

theorem actionners_add_failed_consumes_id_witness :
    (Handler.new c9data.protocol c9data.remote ProbeOutcome.ioFailure
        = .err HandlerError.IoError) ∧
    ((c9act.add c9data ProbeOutcome.ioFailure).1.actionner_data = c9act.actionner_data
     ∧ (c9act.add c9data ProbeOutcome.ioFailure).1.actionners = c9act.actionners
     ∧ (c9act.add c9data ProbeOutcome.ioFailure).1.next_id_to_assign
          = c9act.next_id_to_assign + 1
     ∧ (c9act.add c9data ProbeOutcome.ioFailure).2 = .err HandlerError.IoError
     ∧ (∀ data2 probe2 h2, Handler.new data2.protocol data2.remote probe2 = .ok h2 →
        ((c9act.add c9data ProbeOutcome.ioFailure).1.add data2 probe2).2
            = .ok (c9act.next_id_to_assign + 1)
        ∧ (c9act.add data2 probe2).2 = .ok c9act.next_id_to_assign)) :=
  ⟨by decide,
   actionners_add_failed_consumes_id c9act c9data ProbeOutcome.ioFailure
     HandlerError.IoError (by decide)⟩

/- ===== C10 ===== -/

/-- C10: a `Command` whose device resolves but whose `actionner_id` has no
entry in the live-handler map is treated as success: `act` returns
`ok none`, no frame is written to any remote, and the RPC returns a
successful reply with an empty reply string. -/
theorem command_vanished_actionner_success (s : HomeServer) (object_id : Nat)
    (obj : Object) (command : List Nat) (connectOk : Bool)
    (hget : s.devices.get object_id = some obj)
    (hmiss : lookupKV s.actionners.actionners obj.actionner_id = none) :
    Actionners.act s.actionners command obj connectOk = .ok none
    ∧ HomeServer.command s object_id command connectOk = RpcOutcome.ok ("", []) := by
  have hact : Actionners.act s.actionners command obj connectOk = .ok none := by
    simp [Actionners.act, hmiss]
  refine ⟨hact, ?_⟩
  simp [HomeServer.command, hget, hact]

/-- Server state for the C10 witness: one device bound to actionner 5,
with an empty live-handler map. -/
def c10srv : HomeServer :=
  { devices :=
      { devices := [(0, { actionner_id := 5, id_in_actionner := .Arduino 3,
                          kind := .LED, name := "led1" })],
        next_id_to_assign := 1 },
    actionners := { actionner_data := [], actionners := [], next_id_to_assign := 6 } }

def c10obj : Object :=
  { actionner_id := 5, id_in_actionner := .Arduino 3, kind := .LED, name := "led1" }

theorem command_vanished_actionner_success_witness :
    (c10srv.devices.get 0 = some c10obj
      ∧ lookupKV c10srv.actionners.actionners c10obj.actionner_id = none) ∧
    (Actionners.act c10srv.actionners [1, 0, 0, 0] c10obj true = .ok none
     ∧ HomeServer.command c10srv 0 [1, 0, 0, 0] true = RpcOutcome.ok ("", [])) :=
  ⟨⟨by decide, by decide⟩,
   command_vanished_actionner_success c10srv 0 c10obj [1, 0, 0, 0] true
     (by decide) (by decide)⟩

/- ===== C7 ===== -/

/-- C7 (amended): a `Command` whose device resolves to a live Arduino
handler but whose payload fails to decode as a command value fails with
the `Internal` error kind and an empty message (the handler's
`InvalidCommand` error reaches the facade's catch-all handler-error arm),
not with `InvalidArgument`. -/
theorem command_bad_payload_internal (s : HomeServer) (object_id : Nat)
    (obj : Object) (idv : Int) (address aname : String) (payload : List Nat)
    (connectOk : Bool)
    (hget : s.devices.get object_id = some obj)
    (hid : obj.id_in_actionner = ActionnerId.Arduino idv)
    (hh : lookupKV s.actionners.actionners obj.actionner_id
            = some { handler := Handler.Arduino address, name := aname })
    (hdec : deserializeArduinoCommand payload = none) :
    HomeServer.command s object_id payload connectOk
      = RpcOutcome.err { code := Code.Internal, message := "" } := by
  have hcmd : (Handler.Arduino address).command payload obj connectOk
      = .err .InvalidCommand := by
    simp [Handler.command, hid, hdec]
  simp [HomeServer.command, hget, Actionners.act, hh, hcmd]

/-- Server state for C7: one device on actionner 5 with a live Arduino
handler. -/
def c7srv : HomeServer :=
  { devices :=
      { devices := [(0, { actionner_id := 5, id_in_actionner := .Arduino 3,
                          kind := .LED, name := "led1" })],
        next_id_to_assign := 1 },
    actionners :=
      { actionner_data := [(5, { protocol := .Arduino, remote := "10.0.0.1:80", name := "ard1" })],
        actionners := [(5, { handler := .Arduino "10.0.0.1:80", name := "ard1" })],
        next_id_to_assign := 6 } }

theorem command_bad_payload_internal_witness :
    (c7srv.devices.get 0 = some c10obj
      ∧ c10obj.id_in_actionner = ActionnerId.Arduino 3
      ∧ lookupKV c7srv.actionners.actionners c10obj.actionner_id
          = some { handler := Handler.Arduino "10.0.0.1:80", name := "ard1" }
      ∧ deserializeArduinoCommand [] = none) ∧
    HomeServer.command c7srv 0 [] true
      = RpcOutcome.err { code := Code.Internal, message := "" } :=
  ⟨⟨by decide, by decide, by decide, by decide⟩,
   command_bad_payload_internal c7srv 0 c10obj 3 "10.0.0.1:80" "ard1" [] true
     (by decide) (by decide) (by decide) (by decide)⟩

/-- C7 counterexample to the claim as stated: an undecodable payload (the
empty byte string) on a device with a live Arduino handler yields RPC
status `Internal`, not the claimed `InvalidArgument`. -/
theorem command_bad_payload_counterexample :
    (HomeServer.command c7srv 0 [] true).statusCode = some Code.Internal
    ∧ Code.Internal ≠ Code.InvalidArgument := by decide

/- ===== C3 ===== -/

/-- C3: the Arduino frame encoding is exactly `"on {id}\n"`,
`"off {id}\n"`, `"tog {id}\n"` (decimal rendering of the signed 8-bit
sub-identifier) and `"ard\n"` for `Check`; and a dispatched `Command`
whose payload decodes writes exactly that one frame to the resolved
handler's remote. -/
theorem arduino_command_frames (s : HomeServer) (object_id : Nat) (obj : Object)
    (idv : Int) (address aname : String) (payload : List Nat) (cmd : ArduinoCommand)
    (hrange : -128 ≤ idv ∧ idv ≤ 127)
    (hget : s.devices.get object_id = some obj)
    (hid : obj.id_in_actionner = ActionnerId.Arduino idv)
    (hh : lookupKV s.actionners.actionners obj.actionner_id
            = some { handler := Handler.Arduino address, name := aname })
    (hdec : deserializeArduinoCommand payload = some cmd) :
    ArduinoCommand.repr (.Set true) idv = "on " ++ toString idv ++ "\n"
    ∧ ArduinoCommand.repr (.Set false) idv = "off " ++ toString idv ++ "\n"
    ∧ ArduinoCommand.repr .Toggle idv = "tog " ++ toString idv ++ "\n"
    ∧ ArduinoCommand.repr .Check idv = "ard\n"
    ∧ (Handler.Arduino address).command payload obj true = .ok [(address, cmd.repr idv)]
    ∧ HomeServer.command s object_id payload true
        = RpcOutcome.ok ("", [(address, cmd.repr idv)]) := by
  have hcmd : (Handler.Arduino address).command payload obj true
      = .ok [(address, cmd.repr idv)] := by
    simp [Handler.command, hid, hdec]
  refine ⟨rfl, rfl, rfl, rfl, hcmd, ?_⟩
  simp [HomeServer.command, hget, Actionners.act, hh, hcmd]

theorem arduino_command_frames_witness :
    ((-128 ≤ (3 : Int) ∧ (3 : Int) ≤ 127)
      ∧ c7srv.devices.get 0 = some c10obj
      ∧ c10obj.id_in_actionner = ActionnerId.Arduino 3
      ∧ lookupKV c7srv.actionners.actionners c10obj.actionner_id
          = some { handler := Handler.Arduino "10.0.0.1:80", name := "ard1" }
      ∧ deserializeArduinoCommand [1, 0, 0, 0] = some ArduinoCommand.Toggle) ∧
    (ArduinoCommand.repr (.Set true) 3 = "on " ++ toString (3 : Int) ++ "\n"
     ∧ ArduinoCommand.repr (.Set false) 3 = "off " ++ toString (3 : Int) ++ "\n"
     ∧ ArduinoCommand.repr .Toggle 3 = "tog " ++ toString (3 : Int) ++ "\n"
     ∧ ArduinoCommand.repr .Check 3 = "ard\n"
     ∧ (Handler.Arduino "10.0.0.1:80").command [1, 0, 0, 0] c10obj true
         = .ok [("10.0.0.1:80", ArduinoCommand.Toggle.repr 3)]
     ∧ HomeServer.command c7srv 0 [1, 0, 0, 0] true
         = RpcOutcome.ok ("", [("10.0.0.1:80", ArduinoCommand.Toggle.repr 3)])) ∧
    (ArduinoCommand.repr (.Set true) 3 = "on 3\n"
     ∧ ArduinoCommand.repr .Toggle (-1) = "tog -1\n"
     ∧ ArduinoCommand.repr .Check 0 = "ard\n") :=
  ⟨⟨by decide, by decide, by decide, by decide, by decide⟩,
   arduino_command_frames c7srv 0 c10obj 3 "10.0.0.1:80" "ard1" [1, 0, 0, 0]
     ArduinoCommand.Toggle (by decide) (by decide) (by decide) (by decide) (by decide),
   by decide⟩

/- ===== C8 ===== -/

theorem foldl_actOpenStep_ssh (probe : Nat → ProbeOutcome) :
    ∀ (store : List (Nat × ActionnerData)),
      (∃ e ∈ store, e.2.protocol = Protocol.SSH) →
      ∀ acc, store.foldl (Actionners.openStep probe) acc = none := by
  intro store
  induction store with
  | nil => rintro ⟨e, he, _⟩; cases he
  | cons e rest ih =>
    rintro ⟨e', he', hssh⟩ acc
    rcases List.mem_cons.1 he' with rfl | hmem
    · simp only [List.foldl_cons]
      have hstep : Actionners.openStep probe acc e' = none := by
        cases acc with
        | none => rfl
        | some a => simp [Actionners.openStep, hssh, Handler.new]
      rw [hstep, foldl_actOpenStep_none]
    · simp only [List.foldl_cons]
      exact ih ⟨e', hmem, hssh⟩ _

/-- C8 (amended): every SSH construction path reaches the source's
`unimplemented` arm and panics (modelled `panic` / aborted open), rather
than returning an explicit unsupported-protocol error result:
`Handler::new` with protocol SSH panics for every remote and probe, the
`RegisterDevice` sub-identifier dispatch panics for an SSH actionner, and
a boot-time registry scan over a store containing an SSH descriptor
aborts. -/
theorem ssh_paths_panic (remote : String) (probe : ProbeOutcome)
    (s : HomeServer) (req : RegisterDeviceRequest) (k : ObjectKind) (storeOk : Bool)
    (store : List (Nat × ActionnerData)) (probes : Nat → ProbeOutcome)
    (id : Nat) (data : ActionnerData)
    (hkind : ObjectKind.fromStr req.kind = some k)
    (hproto : s.actionners.protocol req.actionner_id = some Protocol.SSH)
    (hmem : (id, data) ∈ store) (hssh : data.protocol = Protocol.SSH) :
    Handler.new Protocol.SSH remote probe = HandlerResult.panic
    ∧ (HomeServer.register_device s req storeOk).2 = RpcOutcome.panic
    ∧ Actionners.«open» store probes = none := by
  refine ⟨rfl, ?_, ?_⟩
  · simp [HomeServer.register_device, hkind, hproto]
  · unfold Actionners.«open»
    rw [foldl_actOpenStep_ssh probes store ⟨(id, data), hmem, hssh⟩]

/-- Server whose live map holds an SSH-handler actionner at id 2 (such a
value is representable in the state type even though the running code can
never construct one). -/
def c8srv : HomeServer :=
  { devices := { devices := [], next_id_to_assign := 0 },
    actionners := { actionner_data := [],
                    actionners := [(2, { handler := Handler.SSH, name := "sshbox" })],
                    next_id_to_assign := 3 } }

def c8req : RegisterDeviceRequest :=
  { kind := "LED", actionner_id := 2, name := "x", id_in_actionner := "1" }

def c8store : List (Nat × ActionnerData) :=
  [(0, { protocol := .SSH, remote := "host", name := "sshbox" })]

theorem ssh_paths_panic_witness :
    (ObjectKind.fromStr c8req.kind = some ObjectKind.LED
      ∧ c8srv.actionners.protocol c8req.actionner_id = some Protocol.SSH
      ∧ (0, ({ protocol := .SSH, remote := "host", name := "sshbox" } : ActionnerData)) ∈ c8store
      ∧ ({ protocol := .SSH, remote := "host", name := "sshbox" } : ActionnerData).protocol
          = Protocol.SSH) ∧
    (Handler.new Protocol.SSH "host" ProbeOutcome.ioFailure = HandlerResult.panic
     ∧ (HomeServer.register_device c8srv c8req true).2 = RpcOutcome.panic
     ∧ Actionners.«open» c8store (fun _ => ProbeOutcome.ioFailure) = none) :=
  ⟨⟨by decide, by decide, by decide, by decide⟩,
   ssh_paths_panic "host" ProbeOutcome.ioFailure c8srv c8req ObjectKind.LED true
     c8store (fun _ => ProbeOutcome.ioFailure) 0
     { protocol := .SSH, remote := "host", name := "sshbox" }
     (by decide) (by decide) (by decide) (by decide)⟩

/-- C8 counterexample to the claim as stated: SSH handler construction
does not yield an explicit error result — it reaches the `unimplemented`
arm (panic). -/
theorem ssh_construction_counterexample :
    Handler.new Protocol.SSH "10.0.0.1:22" ProbeOutcome.ioFailure = HandlerResult.panic
    ∧ (Handler.new Protocol.SSH "10.0.0.1:22" ProbeOutcome.ioFailure).isErr = false := by
  decide

/- ===== C6 ===== -/

/-- C6 (amended): in `Command` the Device-Registry guard is a
match-scrutinee temporary that lives until the end of the whole match, so
the Actionner-Registry lock is acquired while the Device lock is still
held — the locks are held nested — but always in the fixed order
devices-then-actionners, and the actionners lock is released before the
devices lock; when the device lookup fails no second lock is taken. -/
theorem command_lock_trace_nested :
    commandLockTrace true
      = [LockEvent.acquireDevices, LockEvent.acquireActionners,
         LockEvent.releaseActionners, LockEvent.releaseDevices]
    ∧ commandLockTrace false = [LockEvent.acquireDevices, LockEvent.releaseDevices]
    ∧ actionnersAcquiredWithinDevices (commandLockTrace true) = true
    ∧ (commandLockTrace true).indexOf LockEvent.acquireDevices
        < (commandLockTrace true).indexOf LockEvent.acquireActionners := by
  decide

/-- C6 counterexample to the claim as stated: in the trace of a `Command`
that resolves its device, the Device lock is NOT released before the
Actionner lock is acquired. -/
theorem command_lock_release_counterexample :
    ¬ ((commandLockTrace true).indexOf LockEvent.releaseDevices
        < (commandLockTrace true).indexOf LockEvent.acquireActionners) := by
  decide

/- ===== Helper lemmas: id allocation across sequences of adds ===== -/

theorem devices_add_next (d : Devices) (k : ObjectKind) (aid : Nat) (n : String)
    (iia : ActionnerId) (ok : Bool) :
    (d.add k aid n iia ok).1.next_id_to_assign = d.next_id_to_assign + 1 := by
  cases ok <;> simp [Devices.add]

theorem devices_add_devices (d : Devices) (k : ObjectKind) (aid : Nat) (n : String)
    (iia : ActionnerId) :
    (d.add k aid n iia true).1.devices
      = insertKV d.devices d.next_id_to_assign
          { kind := k, actionner_id := aid, id_in_actionner := iia, name := n }
    ∧ (d.add k aid n iia false).1.devices = d.devices := by
  constructor <;> simp [Devices.add]

theorem devices_add_snd (d : Devices) (k : ObjectKind) (aid : Nat) (n : String)
    (iia : ActionnerId) :
    (d.add k aid n iia true).2 = some d.next_id_to_assign
    ∧ (d.add k aid n iia false).2 = none := by
  constructor <;> simp [Devices.add]

theorem devices_runAdds_spec (calls : List (AddCall × Bool)) :
    ∀ d : Devices,
      d.next_id_to_assign ≤ (Devices.runAdds d calls).1.next_id_to_assign
      ∧ (∀ i ∈ (Devices.runAdds d calls).2,
           d.next_id_to_assign ≤ i ∧ i < (Devices.runAdds d calls).1.next_id_to_assign)
      ∧ List.Pairwise (· < ·) (Devices.runAdds d calls).2
      ∧ (∀ k, k ∈ keysOf (Devices.runAdds d calls).1.devices ↔
           k ∈ keysOf d.devices ∨ k ∈ (Devices.runAdds d calls).2) := by
  induction calls with
  | nil =>
    intro d
    refine ⟨le_rfl, ?_, List.Pairwise.nil, ?_⟩
    · intro i hi; cases hi
    · intro k; simp [Devices.runAdds]
  | cons c rest ih =>
    intro d
    rcases c with ⟨call, ok⟩
    have hnext : ((call, ok).2 : Bool) = ok := rfl
    rcases ih (d.add call.kind call.actionner_id call.name call.id_in_actionner ok).1 with
      ⟨ihle, ihbound, ihpair, ihkeys⟩
    have hstep : (d.add call.kind call.actionner_id call.name call.id_in_actionner
        ok).1.next_id_to_assign = d.next_id_to_assign + 1 :=
      devices_add_next d call.kind call.actionner_id call.name call.id_in_actionner ok
    have hfst : (Devices.runAdds d ((call, ok) :: rest)).1
        = (Devices.runAdds
            (d.add call.kind call.actionner_id call.name call.id_in_actionner ok).1 rest).1 := rfl
    cases ok with
    | false =>
      have hsnd : (Devices.runAdds d (((call, false)) :: rest)).2
          = (Devices.runAdds
              (d.add call.kind call.actionner_id call.name call.id_in_actionner false).1
              rest).2 := by
        simp [Devices.runAdds,
          (devices_add_snd d call.kind call.actionner_id call.name call.id_in_actionner).2]
      rw [hfst, hsnd]
      refine ⟨?_, ?_, ihpair, ?_⟩
      · exact le_trans (by omega) (hstep ▸ ihle)
      · intro i hi
        have h := ihbound i hi
        rw [hstep] at h
        exact ⟨by omega, h.2⟩
      · intro k
        rw [ihkeys k,
          (devices_add_devices d call.kind call.actionner_id call.name
            call.id_in_actionner).2]
    | true =>
      have hsnd : (Devices.runAdds d (((call, true)) :: rest)).2
          = d.next_id_to_assign ::
            (Devices.runAdds
              (d.add call.kind call.actionner_id call.name call.id_in_actionner true).1
              rest).2 := by
        simp [Devices.runAdds,
          (devices_add_snd d call.kind call.actionner_id call.name call.id_in_actionner).1]
      rw [hfst, hsnd]
      have hreststep := hstep ▸ ihle
      refine ⟨?_, ?_, ?_, ?_⟩
      · omega
      · intro i hi
        rcases List.mem_cons.1 hi with rfl | hi'
        · exact ⟨le_rfl, by omega⟩
        · have h := ihbound i hi'
          rw [hstep] at h
          exact ⟨by omega, h.2⟩
      · refine List.pairwise_cons.2 ⟨?_, ihpair⟩
        intro j hj
        have h := ihbound j hj
        rw [hstep] at h
        omega
      · intro k
        rw [ihkeys k,
          (devices_add_devices d call.kind call.actionner_id call.name
            call.id_in_actionner).1, keysOf_insertKV, List.mem_cons]
        tauto

theorem devices_runAdds_allOk (calls : List (AddCall × Bool)) :
    ∀ d : Devices, (∀ c ∈ calls, c.2 = true) →
      (Devices.runAdds d calls).2 = List.range' d.next_id_to_assign calls.length
      ∧ (Devices.runAdds d calls).1.next_id_to_assign
          = d.next_id_to_assign + calls.length := by
  induction calls with
  | nil => intro d h; exact ⟨rfl, rfl⟩
  | cons c rest ih =>
    intro d h
    rcases c with ⟨call, ok⟩
    have hc : ok = true := h (call, ok) (List.mem_cons_self _ _)
    subst hc
    have hstep : (d.add call.kind call.actionner_id call.name call.id_in_actionner
        true).1.next_id_to_assign = d.next_id_to_assign + 1 :=
      devices_add_next d call.kind call.actionner_id call.name call.id_in_actionner true
    rcases ih (d.add call.kind call.actionner_id call.name call.id_in_actionner true).1
        (fun c hc => h c (List.mem_cons_of_mem _ hc)) with ⟨hids, hn⟩
    have hsnd : (Devices.runAdds d (((call, true)) :: rest)).2
        = d.next_id_to_assign ::
          (Devices.runAdds
            (d.add call.kind call.actionner_id call.name call.id_in_actionner true).1
            rest).2 := by
      simp [Devices.runAdds,
        (devices_add_snd d call.kind call.actionner_id call.name call.id_in_actionner).1]
    have hfst : (Devices.runAdds d ((call, true) :: rest)).1
        = (Devices.runAdds
            (d.add call.kind call.actionner_id call.name call.id_in_actionner true).1
            rest).1 := rfl
    constructor
    · rw [hsnd, hids, hstep, List.length_cons, List.range'_succ]
    · rw [hfst, hn, hstep, List.length_cons]
      omega

theorem actionners_add_next (a : Actionners) (data : ActionnerData) (probe : ProbeOutcome) :
    (a.add data probe).1.next_id_to_assign = a.next_id_to_assign + 1 := by
  cases hn : Handler.new data.protocol data.remote probe <;> simp [Actionners.add, hn]

theorem actionners_runAdds_spec (acalls : List (ActionnerData × ProbeOutcome)) :
    ∀ a : Actionners,
      a.next_id_to_assign ≤ (Actionners.runAdds a acalls).1.next_id_to_assign
      ∧ (∀ i ∈ (Actionners.runAdds a acalls).2,
           a.next_id_to_assign ≤ i ∧ i < (Actionners.runAdds a acalls).1.next_id_to_assign)
      ∧ List.Pairwise (· < ·) (Actionners.runAdds a acalls).2
      ∧ (∀ k, k ∈ keysOf (Actionners.runAdds a acalls).1.actionner_data ↔
           k ∈ keysOf a.actionner_data ∨ k ∈ (Actionners.runAdds a acalls).2) := by
  induction acalls with
  | nil =>
    intro a
    refine ⟨le_rfl, ?_, List.Pairwise.nil, ?_⟩
    · intro i hi; cases hi
    · intro k; simp [Actionners.runAdds]
  | cons c rest ih =>
    intro a
    rcases ih (a.add c.1 c.2).1 with ⟨ihle, ihbound, ihpair, ihkeys⟩
    have hstep : (a.add c.1 c.2).1.next_id_to_assign = a.next_id_to_assign + 1 :=
      actionners_add_next a c.1 c.2
    have hfst : (Actionners.runAdds a (c :: rest)).1
        = (Actionners.runAdds (a.add c.1 c.2).1 rest).1 := rfl
    cases hn : Handler.new c.1.protocol c.1.remote c.2 with
    | ok h =>
      have hsnd : (Actionners.runAdds a (c :: rest)).2
          = a.next_id_to_assign :: (Actionners.runAdds (a.add c.1 c.2).1 rest).2 := by
        simp [Actionners.runAdds, Actionners.add, hn]
      have hdata : (a.add c.1 c.2).1.actionner_data
          = insertKV a.actionner_data a.next_id_to_assign c.1 := by
        simp [Actionners.add, hn]
      rw [hfst, hsnd]
      refine ⟨by omega, ?_, ?_, ?_⟩
      · intro i hi
        rcases List.mem_cons.1 hi with rfl | hi'
        · refine ⟨le_rfl, ?_⟩
          have := hstep ▸ ihle
          omega
        · have hb := ihbound i hi'
          rw [hstep] at hb
          exact ⟨by omega, hb.2⟩
      · refine List.pairwise_cons.2 ⟨?_, ihpair⟩
        intro j hj
        have hb := ihbound j hj
        rw [hstep] at hb
        omega
      · intro k
        rw [ihkeys k, hdata, keysOf_insertKV, List.mem_cons]
        tauto
    | err e =>
      have hsnd : (Actionners.runAdds a (c :: rest)).2
          = (Actionners.runAdds (a.add c.1 c.2).1 rest).2 := by
        simp [Actionners.runAdds, Actionners.add, hn]
      have hdata : (a.add c.1 c.2).1.actionner_data = a.actionner_data := by
        simp [Actionners.add, hn]
      rw [hfst, hsnd]
      refine ⟨by omega, ?_, ihpair, ?_⟩
      · intro i hi
        have hb := ihbound i hi
        rw [hstep] at hb
        exact ⟨by omega, hb.2⟩
      · intro k
        rw [ihkeys k, hdata]
    | panic =>
      have hsnd : (Actionners.runAdds a (c :: rest)).2
          = (Actionners.runAdds (a.add c.1 c.2).1 rest).2 := by
        simp [Actionners.runAdds, Actionners.add, hn]
      have hdata : (a.add c.1 c.2).1.actionner_data = a.actionner_data := by
        simp [Actionners.add, hn]
      rw [hfst, hsnd]
      refine ⟨by omega, ?_, ihpair, ?_⟩
      · intro i hi
        have hb := ihbound i hi
        rw [hstep] at hb
        exact ⟨by omega, hb.2⟩
      · intro k
        rw [ihkeys k, hdata]

theorem actionners_runAdds_allOk (acalls : List (ActionnerData × ProbeOutcome)) :
    ∀ a : Actionners,
      (∀ c ∈ acalls, (Handler.new c.1.protocol c.1.remote c.2).isOk = true) →
      (Actionners.runAdds a acalls).2 = List.range' a.next_id_to_assign acalls.length
      ∧ (Actionners.runAdds a acalls).1.next_id_to_assign
          = a.next_id_to_assign + acalls.length := by
  induction acalls with
  | nil => intro a h; exact ⟨rfl, rfl⟩
  | cons c rest ih =>
    intro a h
    have hc := h c (List.mem_cons_self _ _)
    have hstep : (a.add c.1 c.2).1.next_id_to_assign = a.next_id_to_assign + 1 :=
      actionners_add_next a c.1 c.2
    rcases ih (a.add c.1 c.2).1 (fun c' hc' => h c' (List.mem_cons_of_mem _ hc')) with
      ⟨hids, hn2⟩
    have hfst : (Actionners.runAdds a (c :: rest)).1
        = (Actionners.runAdds (a.add c.1 c.2).1 rest).1 := rfl
    cases hn : Handler.new c.1.protocol c.1.remote c.2 with
    | err e => rw [hn] at hc; simp [HandlerResult.isOk] at hc
    | panic => rw [hn] at hc; simp [HandlerResult.isOk] at hc
    | ok hdl =>
      have hsnd : (Actionners.runAdds a (c :: rest)).2
          = a.next_id_to_assign :: (Actionners.runAdds (a.add c.1 c.2).1 rest).2 := by
        simp [Actionners.runAdds, Actionners.add, hn]
      constructor
      · rw [hsnd, hids, hstep, List.length_cons, List.range'_succ]
      · rw [hfst, hn2, hstep, List.length_cons]
        omega


theorem key_lt_actionnersOpen_next {store : List (Nat × ActionnerData)}
    {probe : Nat → ProbeOutcome} {a : Actionners}
    (hopen : Actionners.«open» store probe = some a)
    {e : Nat × ActionnerData} (he : e ∈ store) :
    e.1 < a.next_id_to_assign := by
  rcases actionnersOpen_spec hopen with ⟨_, hnext, _⟩
  rw [hnext]
  exact mem_le_foldl_max he 0

/- ===== C2 ===== -/

/-- C2 (amended): on either registry the ids returned by successful adds
are strictly increasing, within a session and across one close/reopen
cycle; every add attempt — successful or not — consumes one id, so the
claimed equality `id = number of successful adds so far - 1` holds for
the sequences in which every add succeeds: from an empty registry with
all adds succeeding the returned ids are exactly 0,1,2,..., including
across a close/reopen cycle; and the counter is recovered on open as
max existing key + 1, or 0 if the store is empty.  Stated for Devices
(whose open always completes) and for Actionners (whose open is
conditioned on completing without reaching the unimplemented SSH arm). -/
theorem registry_id_monotonicity (d : Devices) (calls1 calls2 : List (AddCall × Bool))
    (known : List Nat) (a : Actionners)
    (acalls1 acalls2 : List (ActionnerData × ProbeOutcome))
    (probes : Nat → ProbeOutcome) :
    List.Pairwise (· < ·)
      ((Devices.runAdds d calls1).2 ++
       (Devices.runAdds (Devices.«open» (Devices.runAdds d calls1).1.devices known)
          calls2).2)
    ∧ (Devices.«open» (Devices.runAdds d calls1).1.devices known).next_id_to_assign
        = maxKeyPlusOne (Devices.runAdds d calls1).1.devices
    ∧ (Devices.«open» ([] : List (Nat × Object)) known).next_id_to_assign = 0
    ∧ (d.devices = [] → d.next_id_to_assign = 0 →
        (∀ c ∈ calls1, c.2 = true) → (∀ c ∈ calls2, c.2 = true) →
        (Devices.runAdds d calls1).2 ++
          (Devices.runAdds (Devices.«open» (Devices.runAdds d calls1).1.devices known)
             calls2).2
          = List.range (calls1.length + calls2.length))
    ∧ List.Pairwise (· < ·) (Actionners.runAdds a acalls1).2
    ∧ (a.next_id_to_assign = 0 →
        (∀ c ∈ acalls1, (Handler.new c.1.protocol c.1.remote c.2).isOk = true) →
        (Actionners.runAdds a acalls1).2 = List.range acalls1.length)
    ∧ (∀ a2, Actionners.«open» (Actionners.runAdds a acalls1).1.actionner_data probes
          = some a2 →
        List.Pairwise (· < ·)
          ((Actionners.runAdds a acalls1).2 ++ (Actionners.runAdds a2 acalls2).2)
        ∧ a2.next_id_to_assign
            = maxKeyPlusOne (Actionners.runAdds a acalls1).1.actionner_data
        ∧ (a.actionner_data = [] → a.next_id_to_assign = 0 →
            (∀ c ∈ acalls1, (Handler.new c.1.protocol c.1.remote c.2).isOk = true) →
            (∀ c ∈ acalls2, (Handler.new c.1.protocol c.1.remote c.2).isOk = true) →
            (Actionners.runAdds a acalls1).2 ++ (Actionners.runAdds a2 acalls2).2
              = List.range (acalls1.length + acalls2.length))) := by
  rcases devices_runAdds_spec calls1 d with ⟨h1le, h1bound, h1pair, h1keys⟩
  rcases devices_runAdds_spec calls2
      (Devices.«open» (Devices.runAdds d calls1).1.devices known) with
    ⟨h2le, h2bound, h2pair, h2keys⟩
  have hcross : ∀ i ∈ (Devices.runAdds d calls1).2,
      ∀ j ∈ (Devices.runAdds
        (Devices.«open» (Devices.runAdds d calls1).1.devices known) calls2).2, i < j := by
    intro i hi j hj
    have hikey : i ∈ keysOf (Devices.runAdds d calls1).1.devices :=
      (h1keys i).2 (Or.inr hi)
    rcases keysOf_mem_iff.1 hikey with ⟨v, hv⟩
    have hilt : i < (Devices.«open» (Devices.runAdds d calls1).1.devices
        known).next_id_to_assign := key_lt_devicesOpen_next hv
    have hjge := (h2bound j hj).1
    omega
  refine ⟨List.pairwise_append.2 ⟨h1pair, h2pair, hcross⟩,
          devicesOpen_next _ known, rfl, ?_,
          (actionners_runAdds_spec acalls1 a).2.2.1, ?_, ?_⟩
  · intro hdev hnext hall1 hall2
    rcases devices_runAdds_allOk calls1 d hall1 with ⟨hids1, hn1⟩
    rw [hnext] at hids1 hn1
    have hkeys1 : ∀ k, k ∈ keysOf (Devices.runAdds d calls1).1.devices ↔
        k < calls1.length := by
      intro k
      rw [h1keys k, hids1, hdev]
      simp [keysOf, List.mem_range'_1]
    have hmax : maxKeyPlusOne (Devices.runAdds d calls1).1.devices = calls1.length :=
      maxKeyPlusOne_eq_of_keys_iff hkeys1
    have hopen2 : (Devices.«open» (Devices.runAdds d calls1).1.devices
        known).next_id_to_assign = calls1.length := by
      rw [devicesOpen_next, hmax]
    rcases devices_runAdds_allOk calls2
        (Devices.«open» (Devices.runAdds d calls1).1.devices known) hall2 with ⟨hids2, _⟩
    rw [hopen2] at hids2
    rw [hids1, hids2]
    have happ := List.range'_append 0 calls1.length calls2.length 1
    simp only [Nat.one_mul, Nat.zero_add] at happ
    rw [happ, List.range_eq_range', Nat.add_comm]
  · intro hnext hall
    rcases actionners_runAdds_allOk acalls1 a hall with ⟨hids, _⟩
    rw [hnext] at hids
    rw [hids, List.range_eq_range']
  · intro a2 hopen
    rcases actionners_runAdds_spec acalls1 a with ⟨ha1le, ha1bound, ha1pair, ha1keys⟩
    rcases actionners_runAdds_spec acalls2 a2 with ⟨ha2le, ha2bound, ha2pair, ha2keys⟩
    have hacross : ∀ i ∈ (Actionners.runAdds a acalls1).2,
        ∀ j ∈ (Actionners.runAdds a2 acalls2).2, i < j := by
      intro i hi j hj
      have hikey : i ∈ keysOf (Actionners.runAdds a acalls1).1.actionner_data :=
        (ha1keys i).2 (Or.inr hi)
      rcases keysOf_mem_iff.1 hikey with ⟨v, hv⟩
      have hilt : i < a2.next_id_to_assign := key_lt_actionnersOpen_next hopen hv
      have hjge := (ha2bound j hj).1
      omega
    refine ⟨List.pairwise_append.2 ⟨ha1pair, ha2pair, hacross⟩,
            (actionnersOpen_spec hopen).2.1, ?_⟩
    intro hdata hnext hall1 hall2
    rcases actionners_runAdds_allOk acalls1 a hall1 with ⟨hids1, hn1⟩
    rw [hnext] at hids1 hn1
    have hkeys1 : ∀ k, k ∈ keysOf (Actionners.runAdds a acalls1).1.actionner_data ↔
        k < acalls1.length := by
      intro k
      rw [ha1keys k, hids1, hdata]
      simp [keysOf, List.mem_range'_1]
    have hmax : maxKeyPlusOne (Actionners.runAdds a acalls1).1.actionner_data
        = acalls1.length := maxKeyPlusOne_eq_of_keys_iff hkeys1
    have ha2next : a2.next_id_to_assign = acalls1.length := by
      rw [(actionnersOpen_spec hopen).2.1, hmax]
    rcases actionners_runAdds_allOk acalls2 a2 hall2 with ⟨hids2, _⟩
    rw [ha2next] at hids2
    rw [hids1, hids2]
    have happ := List.range'_append 0 acalls1.length acalls2.length 1
    simp only [Nat.one_mul, Nat.zero_add] at happ
    rw [happ, List.range_eq_range', Nat.add_comm]

def c2data : ActionnerData := { protocol := .Arduino, remote := "10.0.0.9:80", name := "ardX" }

def c2act : Actionners := { actionner_data := [], actionners := [], next_id_to_assign := 0 }

def c2dev : Devices := { devices := [], next_id_to_assign := 0 }

/-- One failing then one succeeding `Actionners::add` on a fresh registry. -/
def c2calls : List (ActionnerData × ProbeOutcome) :=
  [(c2data, ProbeOutcome.ioFailure), (c2data, ProbeOutcome.response (yes_bytes ++ [0]))]

/-- C2 counterexample to the claim as stated: after one failed and one
successful add on a fresh Actionners registry, the single successful add
returns id 1, not `number of successful adds so far - 1 = 0`. -/
theorem registry_id_monotonicity_counterexample :
    (Actionners.runAdds c2act c2calls).2 = [1]
    ∧ (Actionners.runAdds c2act c2calls).2
        ≠ List.range (Actionners.runAdds c2act c2calls).2.length := by
  decide

def c2call : AddCall :=
  { kind := .LED, actionner_id := 0, name := "led", id_in_actionner := .Arduino 1 }

def c2calls1 : List (AddCall × Bool) := [(c2call, true), (c2call, true)]

def c2calls2 : List (AddCall × Bool) := [(c2call, true)]

def c2callsOk : List (ActionnerData × ProbeOutcome) :=
  [(c2data, ProbeOutcome.response (yes_bytes ++ [0]))]

/-- Probe oracle used at the witness's Actionners reopen: every key
answers `yes`. -/
def c2probes : Nat → ProbeOutcome := fun _ => ProbeOutcome.response (yes_bytes ++ [0])

def c2acalls2 : List (ActionnerData × ProbeOutcome) :=
  [(c2data, ProbeOutcome.response (yes_bytes ++ [0]))]

/-- The Actionners registry obtained by reopening the store persisted by
the witness's first session. -/
def c2act2 : Actionners :=
  { actionner_data := [(0, c2data)],
    actionners := [(0, { handler := Handler.Arduino "10.0.0.9:80", name := "ardX" })],
    next_id_to_assign := 1 }

theorem registry_id_monotonicity_witness :
    (List.Pairwise (· < ·)
      ((Devices.runAdds c2dev c2calls1).2 ++
       (Devices.runAdds (Devices.«open» (Devices.runAdds c2dev c2calls1).1.devices [])
          c2calls2).2)
    ∧ (Devices.«open» (Devices.runAdds c2dev c2calls1).1.devices []).next_id_to_assign
        = maxKeyPlusOne (Devices.runAdds c2dev c2calls1).1.devices
    ∧ (Devices.«open» ([] : List (Nat × Object)) []).next_id_to_assign = 0
    ∧ ((Devices.runAdds c2dev c2calls1).2 ++
        (Devices.runAdds (Devices.«open» (Devices.runAdds c2dev c2calls1).1.devices [])
           c2calls2).2
        = List.range (c2calls1.length + c2calls2.length))
    ∧ List.Pairwise (· < ·) (Actionners.runAdds c2act c2callsOk).2
    ∧ (Actionners.runAdds c2act c2callsOk).2 = List.range c2callsOk.length)
    ∧ (Actionners.«open» (Actionners.runAdds c2act c2callsOk).1.actionner_data c2probes
         = some c2act2
       ∧ List.Pairwise (· < ·)
           ((Actionners.runAdds c2act c2callsOk).2 ++ (Actionners.runAdds c2act2 c2acalls2).2)
       ∧ c2act2.next_id_to_assign
           = maxKeyPlusOne (Actionners.runAdds c2act c2callsOk).1.actionner_data
       ∧ (Actionners.runAdds c2act c2callsOk).2 ++ (Actionners.runAdds c2act2 c2acalls2).2
           = List.range (c2callsOk.length + c2acalls2.length)) := by
  have h := registry_id_monotonicity c2dev c2calls1 c2calls2 [] c2act c2callsOk
    c2acalls2 c2probes
  have hcycle := h.2.2.2.2.2.2 c2act2 (by decide)
  exact ⟨⟨h.1, h.2.1, h.2.2.1, h.2.2.2.1 rfl rfl (by decide) (by decide),
          h.2.2.2.2.1, h.2.2.2.2.2.1 rfl (by decide)⟩,
         ⟨by decide, hcycle.1, hcycle.2.1, hcycle.2.2 rfl rfl (by decide) (by decide)⟩⟩
